import Mathlib

/-!
Shallow embedding of the AI-assisted language-server request handlers
(src/src/server.ts).  Pure text utilities are translated directly; the
single outbound HTTPS call of `callHuggingFaceAPI` is modelled by an
explicit `HttpOutcome` parameter (the network's behaviour for the one
request the client issues), and JavaScript exceptions are modelled with
`Except`.  JSON values are modelled by the inductive `Json`; JavaScript
truthiness and property access are translated explicitly.
-/

/-- A parsed JSON value (the result of a successful `JSON.parse`). -/
inductive Json where
  | null : Json
  | bool (b : Bool) : Json
  | num (n : Int) : Json
  | str (s : String) : Json
  | arr (elems : List Json) : Json
  | obj (fields : List (String × Json)) : Json

/-- Errors the inference client can produce: a missing credential
(`reject(new Error('Hugging Face API Key is missing'))`), a network
error event (`req.on('error', ... reject(error))`), or the 5000 ms
timeout (`req.setTimeout(5000, ... reject(new Error('Request timed out')))`). -/
inductive ApiError where
  | missingKey : ApiError
  | network : ApiError
  | timeout : ApiError
deriving DecidableEq

/-- A JavaScript exception escaping a handler: either a TypeError
(e.g. calling a method on `undefined`) or a rejected inference call. -/
inductive JsError where
  | typeError : JsError
  | api (e : ApiError) : JsError
deriving DecidableEq

/-- The behaviour of the network for the one HTTPS request the client
issues: a response with a status code and a body (`none` when the body
fails `JSON.parse`), an error event, or a timeout. -/
inductive HttpOutcome where
  | response (status : Nat) (body : Option Json) : HttpOutcome
  | networkError : HttpOutcome
  | timeout : HttpOutcome

/-- A cursor position: zero-based line and character, as in the LSP. -/
structure Position where
  line : Nat
  character : Nat

/-- A completion item; fields not set at construction are `none`
(JavaScript `undefined`).  `kind` is `CompletionItemKind.Text = 1`. -/
structure CompletionItem where
  label : String
  kind : Nat := 1
  sortText : Option String := none
  insertText : Option String := none
  detail : Option String := none
  documentation : Option String := none
deriving DecidableEq

/-- Hover contents (`{ kind: 'markdown', value }`). -/
structure Hover where
  kind : String
  value : String
deriving DecidableEq

structure ParameterInformation where
  label : String
  documentation : String
deriving DecidableEq

structure SignatureInformation where
  label : String
  documentation : String
  parameters : List ParameterInformation
deriving DecidableEq

structure SignatureHelp where
  signatures : List SignatureInformation
  activeSignature : Nat
  activeParameter : Nat
deriving DecidableEq

/-- One run of a request handler: the value it returns to the editor
(or the JavaScript exception that escaped it), together with whether
control reached the inference client (`callHuggingFaceAPI`). -/
structure HandlerRun (α : Type) where
  result : Except JsError α
  apiCalled : Bool

/- ### JavaScript string primitives used by the server -/

/-- The whitespace class of JavaScript's `String.prototype.trim`
(ASCII part; the server only ever trims model output and source text). -/
def isWs (c : Char) : Bool :=
  c = ' ' || c = '\t' || c = '\n' || c = '\r' || c = '\x0b' || c = '\x0c'

def trimChars (l : List Char) : List Char :=
  ((l.dropWhile isWs).reverse.dropWhile isWs).reverse

/-- `s.trim()`. -/
def jsTrim (s : String) : String :=
  (trimChars s.data).asString

/-- `s.substring(a, b)` for `a ≤ b` (the only way the server uses it):
the characters in `[a, b)`, clamped to the string. -/
def jsSubstring (s : String) (a b : Nat) : String :=
  ((s.data.take b).drop a).asString

/-- Template-literal coercion: `undefined` interpolates as "undefined". -/
def jsToString : Option String → String
  | none => "undefined"
  | some s => s

/-- JavaScript `a || b` on strings: `a` when non-empty, else `b`. -/
def jsOr (a b : String) : String :=
  if a ≠ "" then a else b

/-- `String.prototype.split` with a single-character separator. -/
def splitOnCharAux (sep : Char) : List Char → List Char → List String → List String
  | [], acc, segs => segs ++ [acc.asString]
  | c :: rest, acc, segs =>
    if c = sep then splitOnCharAux sep rest [] (segs ++ [acc.asString])
    else splitOnCharAux sep rest (acc ++ [c]) segs

def splitOnChar (s : String) (sep : Char) : List String :=
  splitOnCharAux sep s.data [] []

/-- `text.split('\n')`, as used on document text and generated text. -/
def splitLines (s : String) : List String := splitOnChar s '\n'

/-- `lines.join('\n')` / `Array.prototype.join('\n')`. -/
def joinNl : List String → String
  | [] => ""
  | [s] => s
  | s :: rest => s ++ "\n" ++ joinNl rest

/-- `l.lastIndexOf(c)` on a character list: index of the last occurrence. -/
def lastIndexOfChar : List Char → Char → Option Nat
  | [], _ => none
  | x :: rest, c =>
    match lastIndexOfChar rest c with
    | some i => some (i + 1)
    | none => if x = c then some 0 else none

/-- `String(n).padStart(5, '0')` for a natural `n`. -/
def pad5 (n : Nat) : String :=
  let s := toString n
  (List.replicate (5 - s.length) '0').asString ++ s

/- ### Inference client: `callHuggingFaceAPI` (server.ts lines 64-138) -/

/-- The fixed request timeout passed to `req.setTimeout` (milliseconds). -/
def requestTimeoutMs : Nat := 5000

/-- `if (!HUGGINGFACE_API_KEY)`: the credential is usable when present
and non-empty (JavaScript truthiness of the environment variable). -/
def keyPresent : Option String → Bool
  | none => false
  | some s => s ≠ ""

/-- JavaScript property access `j.generated_text` on a parsed JSON
value: throws a TypeError on `null`, yields the field on an object,
`undefined` (here `none`) otherwise. -/
def propAccess (j : Json) (name : String) : Except Unit (Option Json) :=
  match j with
  | .null => .error ()
  | .obj fields => .ok (fields.lookup name)
  | _ => .ok none

/-- JavaScript truthiness of a possibly-`undefined` JSON value. -/
def truthy : Option Json → Bool
  | none => false
  | some .null => false
  | some (.bool b) => b
  | some (.num n) => n ≠ 0
  | some (.str s) => s ≠ ""
  | some (.arr _) => true
  | some (.obj _) => true

/-- The body of the `res.on('end', ...)` try/catch for a 200 response:
`parsedData.generated_text` when truthy; else the first element of a
non-empty array when its `generated_text` is truthy; else the empty
string.  A `JSON.parse` failure (`body = none`) and any TypeError
raised by the property accesses are caught and yield the empty string. -/
def parseResponseBody (body : Option Json) : Json :=
  match body with
  | none => .str ""
  | some parsedData =>
    match propAccess parsedData "generated_text" with
    | .error _ => .str ""
    | .ok v =>
      if truthy v then v.getD (.str "")
      else
        match parsedData with
        | .arr (first :: _) =>
          match propAccess first "generated_text" with
          | .error _ => .str ""
          | .ok w => if truthy w then w.getD (.str "") else .str ""
        | _ => .str ""

/-- `callHuggingFaceAPI(prompt, maxTokens)`: rejects when the key is
missing, otherwise issues the one request; a non-200 status resolves to
the empty string, a 200 response resolves to `parseResponseBody`, an
error event or the timeout rejects.  The prompt does not influence the
modelled network, so it is not a parameter here. -/
def callHuggingFaceAPI (key : Option String) (out : HttpOutcome) : Except ApiError Json :=
  if keyPresent key = false then .error .missingKey
  else
    match out with
    | .networkError => .error .network
    | .timeout => .error .timeout
    | .response status body =>
      if status ≠ 200 then .ok (.str "")
      else .ok (parseResponseBody body)

/-- Downstream string methods (`split`, `trim`) on the resolved value:
a TypeError unless it is a string. -/
def jsonAsStr : Json → Except JsError String
  | .str s => .ok s
  | _ => .error .typeError

/- ### Completion (server.ts lines 141-224) -/

/-- `completionText.split(/\d+\./)`: the regular expression matches a
maximal run of digits followed by a dot (backtracking inside the run
cannot succeed, since a shorter run would have to end at a digit), and
`split` scans left to right.  `pend` holds the digit run currently
being read, `acc` the current segment, `segs` the finished segments. -/
def splitNumDotAux : List Char → List Char → List Char → List String → List String
  | [], pend, acc, segs => segs ++ [(acc ++ pend).asString]
  | c :: rest, pend, acc, segs =>
    if c.isDigit then splitNumDotAux rest (pend ++ [c]) acc segs
    else if c = '.' ∧ pend ≠ [] then splitNumDotAux rest [] [] (segs ++ [acc.asString])
    else splitNumDotAux rest [] (acc ++ pend ++ [c]) segs

def splitNumDot (s : String) : List String :=
  splitNumDotAux s.data [] [] []

/-- The `suggestions.forEach((suggestion, index) => ...)` loop: trims
each suggestion and pushes an item (the trimmed text as label and
insert text, `String(index).padStart(5, '0')` as sort key) when the
trimmed text is non-empty; the index advances with the list position. -/
def buildItems : List String → Nat → List CompletionItem
  | [], _ => []
  | suggestion :: rest, index =>
    let cleanSuggestion := jsTrim suggestion
    if cleanSuggestion ≠ "" then
      { label := cleanSuggestion, kind := 1,
        sortText := some (pad5 index),
        insertText := some cleanSuggestion } :: buildItems rest (index + 1)
    else buildItems rest (index + 1)

/-- The parsing part of `getAICompletion`: split on `/\d+\./`, keep
segments whose trim is non-empty; when none remain but the raw text
trims to something non-empty, emit one item for the full trimmed text
with sort key "00000"; otherwise build the numbered items. -/
def getAICompletionItems (completionText : String) : List CompletionItem :=
  let suggestions := (splitNumDot completionText).filter (fun s => 0 < (jsTrim s).length)
  if suggestions.length = 0 ∧ 0 < (jsTrim completionText).length then
    [{ label := jsTrim completionText, kind := 1,
       sortText := some "00000",
       insertText := some (jsTrim completionText) }]
  else buildItems suggestions 0

/-- `getAICompletion(context, currentLine)`: invokes the inference
client (the prompt built from `context` and `currentLine` does not
influence the modelled network) and parses the reply; its try/catch
turns any rejection — including a TypeError from calling `.split` on a
non-string resolved value — into the empty list. -/
def getAICompletion (key : Option String) (out : HttpOutcome)
    (_context _currentLine : String) : List CompletionItem :=
  match callHuggingFaceAPI key out with
  | .error _ => []
  | .ok j =>
    match jsonAsStr j with
    | .error _ => []
    | .ok completionText => getAICompletionItems completionText

/-- `connection.onCompletion`: splits the document, reads
`lines[position.line]` (which is `undefined` when the line index is out
of bounds — no bounds check is made), assembles the 6-line context
window, and awaits `getAICompletion`, whose own catch already yields
`[]`; the handler's try/catch therefore never fires and the handler
never rejects.  The inference client is invoked unconditionally inside
`getAICompletion`, hence `apiCalled := true`. -/
def onCompletionHandler (key : Option String) (out : HttpOutcome)
    (docText : String) (pos : Position) : HandlerRun (List CompletionItem) :=
  let lines := splitLines docText
  let currentLine := lines.get? pos.line
  let startLine := pos.line - 5
  let contextLines := (lines.drop startLine).take (pos.line + 1 - startLine)
  let context := joinNl contextLines
  ⟨.ok (getAICompletion key out context (jsToString currentLine)), true⟩

/- ### Completion resolve (server.ts lines 227-257) -/

/-- The parsing part of `connection.onCompletionResolve`: split the
generated docstring on line breaks (the split is never empty, so the
`lines.length > 0` guard always passes), set `detail` to the trimmed
first line and `documentation` to the trimmed join of the remaining
lines, falling back (`||`) to the trimmed first line when that trim is
empty. -/
def applyDocText (docText : String) (item : CompletionItem) : CompletionItem :=
  let lines := splitLines docText
  if 0 < lines.length then
    { item with
      detail := some (jsTrim (lines.getD 0 "")),
      documentation := some (jsOr (jsTrim (joinNl (lines.drop 1))) (jsTrim (lines.getD 0 ""))) }
  else item

/-- `connection.onCompletionResolve`: awaits the inference client (the
prompt is built from `item.label`); on any rejection — or a TypeError
from `.split` on a non-string resolved value — the catch returns the
item unchanged; otherwise the item's fields are overwritten. -/
def onCompletionResolveHandler (key : Option String) (out : HttpOutcome)
    (item : CompletionItem) : Except JsError CompletionItem :=
  match callHuggingFaceAPI key out with
  | .error _ => .ok item
  | .ok j =>
    match jsonAsStr j with
    | .error _ => .ok item
    | .ok docText => .ok (applyDocText docText item)

/- ### Signature help (server.ts lines 260-345) -/

/-- The parameter-index helper `getCurrentParameterIndex`'s counting
loop over the text after the found parenthesis: `nestedLevel` is a
JavaScript number and may go negative; a comma counts only at level 0. -/
def countParamsAux : List Char → Int → Nat → Nat
  | [], _, paramCount => paramCount
  | c :: rest, nestedLevel, paramCount =>
    if c = '(' then countParamsAux rest (nestedLevel + 1) paramCount
    else if c = ')' then countParamsAux rest (nestedLevel - 1) paramCount
    else if c = ',' ∧ nestedLevel = 0 then countParamsAux rest nestedLevel (paramCount + 1)
    else countParamsAux rest nestedLevel paramCount

/-- `getCurrentParameterIndex(line, position)`: takes the text up to the
cursor, finds the last `(` with a plain `lastIndexOf` (matched or not),
returns 0 when there is none, and otherwise counts the commas at
nesting level 0 in the text after that parenthesis. -/
def getCurrentParameterIndex (line : String) (position : Nat) : Nat :=
  let textToCursor := line.data.take position
  match lastIndexOfChar textToCursor '(' with
  | none => 0
  | some openParenIndex =>
    countParamsAux (textToCursor.drop (openParenIndex + 1)) 0 0

/-- The identifier class `/[\w\d\._]/` shared by the signature-help
function-name scan and `getWordRangeAtPosition`: ASCII letters, digits,
underscore, dot. -/
def isIdentChar (c : Char) : Bool :=
  c.isAlpha || c.isDigit || c = '_' || c = '.'

/-- The `while (i >= 0 && /[\w\._]/.test(currentLine[i]))` loop that
collects the function name leftwards from the opening parenthesis; the
fuel argument is the current index plus one (0 encodes `i < 0`). -/
def extractFnNameAux (line : List Char) : Nat → List Char
  | 0 => []
  | k + 1 =>
    if isIdentChar (line.getD k ' ') then extractFnNameAux line k ++ [line.getD k ' ']
    else []

/-- The function name to the left of position `functionCallStart`. -/
def extractFnName (line : List Char) (functionCallStart : Nat) : String :=
  (extractFnNameAux line functionCallStart).asString

/-- First index of `c` in `l` at or after `start`. -/
def firstIndexFrom (l : List Char) (c : Char) (start : Nat) : Option Nat :=
  ((l.drop start).findIdx? (· = c)).map (· + start)

/-- The non-greedy match `signature.match(/\((.*?)\)/)`: the text
between the first `(` and the first `)` after it, when both exist. -/
def paramMatchGroup (s : String) : Option String :=
  match s.data.findIdx? (· = '(') with
  | none => none
  | some i =>
    match firstIndexFrom s.data ')' (i + 1) with
    | none => none
    | some j => some (((s.data.take j).drop (i + 1)).asString)

/-- The `params.forEach((param, index) => ...)` loop building the
parameter list: each label is the trimmed parameter text, each
documentation the placeholder "Parameter N" (1-based). -/
def buildParamsAux : List String → Nat → List ParameterInformation
  | [], _ => []
  | param :: rest, index =>
    { label := jsTrim param, documentation := "Parameter " ++ toString (index + 1) }
      :: buildParamsAux rest (index + 1)

/-- The parameter list of the signature: the comma-split of the first
parenthesised group, when the group exists and is non-empty (the
`paramMatch && paramMatch[1]` truthiness test). -/
def buildParameterList (signature : String) : List ParameterInformation :=
  match paramMatchGroup signature with
  | none => []
  | some g => if g ≠ "" then buildParamsAux (splitOnChar g ',') 0 else []

/-- `connection.onSignatureHelp`: reads `lines[position.line]` with no
bounds check — when the index is out of bounds the subsequent
`currentLine.substring(...)` throws a TypeError *before* the handler's
try block, so the handler rejects; with no `(` left of the cursor it
returns null before any network activity; otherwise it awaits the
inference client inside the try block, whose catch returns null. -/
def onSignatureHelpHandler (key : Option String) (out : HttpOutcome)
    (docText : String) (pos : Position) : HandlerRun (Option SignatureHelp) :=
  let lines := splitLines docText
  match lines.get? pos.line with
  | none => ⟨.error .typeError, false⟩
  | some currentLine =>
    let textToCursor := jsSubstring currentLine 0 pos.character
    match lastIndexOfChar textToCursor.data '(' with
    | none => ⟨.ok none, false⟩
    | some functionCallStart =>
      let _functionName := extractFnName currentLine.data functionCallStart
      match callHuggingFaceAPI key out with
      | .error _ => ⟨.ok none, true⟩
      | .ok j =>
        match jsonAsStr j with
        | .error _ => ⟨.ok none, true⟩
        | .ok signatureText =>
          let signature := jsTrim signatureText
          ⟨.ok (some
            { signatures := [{ label := signature,
                               documentation := "No documentation available.",
                               parameters := buildParameterList signature }],
              activeSignature := 0,
              activeParameter := getCurrentParameterIndex currentLine pos.character }), true⟩

/- ### Hover (server.ts lines 348-434) -/

/-- The `while (start > 0 && ...)` scan of `getWordRangeAtPosition`:
the maximal left extension of the word start. -/
def scanWordStart (line : List Char) : Nat → Nat
  | 0 => 0
  | s + 1 => if isIdentChar (line.getD s ' ') then scanWordStart line s else s + 1

/-- The `while (end < line.length && ...)` scan: the fuel argument is
an upper bound on the remaining steps (`line.length - e` at the call). -/
def scanWordEndAux (line : List Char) : Nat → Nat → Nat
  | 0, e => e
  | fuel + 1, e =>
    if e < line.length then
      (if isIdentChar (line.getD e ' ') then scanWordEndAux line fuel (e + 1) else e)
    else e

def scanWordEnd (line : List Char) (e : Nat) : Nat :=
  scanWordEndAux line (line.length - e) e

/-- `getWordRangeAtPosition(line, position)`: null for an empty line
(`!line`), an out-of-bounds position, or a non-identifier character at
the position; otherwise the maximal identifier range around the
position (the final emptiness check `start === end || end <= start`
can never fire, since `start ≤ position < end`). -/
def getWordRangeAtPosition (line : List Char) (position : Nat) : Option (Nat × Nat) :=
  if line.isEmpty then none
  else if position ≥ line.length then none
  else if ¬ isIdentChar (line.getD position ' ') then none
  else
    let start := scanWordStart line position
    let wordEnd := scanWordEnd line (position + 1)
    if start = wordEnd ∨ wordEnd ≤ start then none
    else some (start, wordEnd)

/-- The fallback hover text when the trimmed generated text is empty. -/
def noInfoFallback (word : String) : String :=
  "No information available for '" ++ word ++ "'"

/-- `connection.onHover`: validates the line index and character offset
(returning null without any network activity when out of bounds), finds
the word range (null when none), and only then awaits the inference
client inside the try block; the hover value is the trimmed generated
text `||` the fallback message, and the catch returns null. -/
def onHoverHandler (key : Option String) (out : HttpOutcome)
    (docText : String) (pos : Position) : HandlerRun (Option Hover) :=
  let lines := splitLines docText
  if pos.line ≥ lines.length then ⟨.ok none, false⟩
  else
    let line := lines.getD pos.line ""
    if pos.character ≥ line.length then ⟨.ok none, false⟩
    else
      match getWordRangeAtPosition line.data pos.character with
      | none => ⟨.ok none, false⟩
      | some (start, wordEnd) =>
        let word := jsSubstring line start wordEnd
        if word = "" ∨ jsTrim word = "" then ⟨.ok none, false⟩
        else
          match callHuggingFaceAPI key out with
          | .error _ => ⟨.ok none, true⟩
          | .ok j =>
            match jsonAsStr j with
            | .error _ => ⟨.ok none, true⟩
            | .ok hoverText =>
              ⟨.ok (some { kind := "markdown",
                           value := jsOr (jsTrim hoverText) (noInfoFallback word) }), true⟩

/- ### Helper lemmas -/

lemma string_length_pos_of_ne (s : String) (h : s ≠ "") : 0 < s.length := by
  cases s with
  | mk data =>
    cases data with
    | nil => exact absurd rfl h
    | cons c cs => simp [String.length]

lemma lastIndexOfChar_eq_none (l : List Char) (c : Char) (h : c ∉ l) :
    lastIndexOfChar l c = none := by
  induction l with
  | nil => rfl
  | cons x rest ih =>
    have hx : x ≠ c := fun hxc => h (hxc ▸ List.mem_cons_self x rest)
    have hr : c ∉ rest := fun hm => h (List.mem_cons_of_mem x hm)
    simp [lastIndexOfChar, ih hr, hx]

lemma countParamsAux_no_parens (l : List Char) (k : Nat)
    (hop : '(' ∉ l) (hcl : ')' ∉ l) :
    countParamsAux l 0 k = k + l.count ',' := by
  induction l generalizing k with
  | nil => simp [countParamsAux]
  | cons c rest ih =>
    have hc1 : ¬(c = '(') := fun h => hop (h ▸ List.mem_cons_self c rest)
    have hc2 : ¬(c = ')') := fun h => hcl (h ▸ List.mem_cons_self c rest)
    have hr1 : '(' ∉ rest := fun hm => hop (List.mem_cons_of_mem c hm)
    have hr2 : ')' ∉ rest := fun hm => hcl (List.mem_cons_of_mem c hm)
    have ih' : ∀ k', countParamsAux rest 0 k' = k' + rest.count ',' :=
      fun k' => ih k' hr1 hr2
    by_cases hc : c = ','
    · simp [countParamsAux, hc1, hc2, hc, ih', List.count_cons]
      omega
    · simp [countParamsAux, hc1, hc2, hc, ih', List.count_cons]

lemma splitOnCharAux_ne_nil (sep : Char) (l acc : List Char) (segs : List String) :
    splitOnCharAux sep l acc segs ≠ [] := by
  induction l generalizing acc segs with
  | nil => simp [splitOnCharAux]
  | cons c rest ih =>
    by_cases hc : c = sep
    · simpa [splitOnCharAux, hc] using ih [] (segs ++ [acc.asString])
    · simpa [splitOnCharAux, hc] using ih (acc ++ [c]) segs

lemma splitLines_length_pos (s : String) : 0 < (splitLines s).length :=
  List.length_pos.mpr (splitOnCharAux_ne_nil '\n' s.data [] [])

/- ### C1: getCurrentParameterIndex -/

/-- C1 counterexample: the claim says the parameter index for the line
"foo(a, bar(1,2), " with the cursor at end-of-string (offset 17) is 2;
`getCurrentParameterIndex` returns 1, because `lastIndexOf('(')` finds
the (already matched) parenthesis of `bar(` rather than the last
unmatched one, and after `bar`'s closing parenthesis the nesting level
is negative, so the final comma is not counted. -/
theorem claim_parameter_index_counterexample :
    getCurrentParameterIndex "foo(a, bar(1,2), " 17 = 1 ∧ (1 : Nat) ≠ 2 :=
  ⟨rfl, by decide⟩

/-- C1 (amended): `getCurrentParameterIndex` finds the last
open-parenthesis at or before the cursor — matched or not, via a plain
`lastIndexOf` — and returns 0 when there is none; from that parenthesis
to the cursor it counts the commas at nesting depth 0, where the depth
decrements on ')' and may go negative (so in a parenthesis-free suffix
every comma is counted); for "foo(a, bar(1,2), " at end-of-string it
returns 1. -/
theorem claim_parameter_index (line : String) (pos : Nat) :
    ('(' ∉ line.data.take pos → getCurrentParameterIndex line pos = 0)
    ∧ (∀ i, lastIndexOfChar (line.data.take pos) '(' = some i →
        '(' ∉ (line.data.take pos).drop (i + 1) →
        ')' ∉ (line.data.take pos).drop (i + 1) →
        getCurrentParameterIndex line pos = ((line.data.take pos).drop (i + 1)).count ',')
    ∧ getCurrentParameterIndex "foo(a, bar(1,2), " 17 = 1 := by
  refine ⟨?_, ?_, rfl⟩
  · intro h
    simp only [getCurrentParameterIndex]
    rw [lastIndexOfChar_eq_none _ _ h]
  · intro i hi hop hcl
    simp only [getCurrentParameterIndex]
    rw [hi]
    simpa using countParamsAux_no_parens _ 0 hop hcl

/-- Witness for C1 at concrete inputs: "ab" has no '(' before offset 2,
and in "f(a,b" at offset 5 the suffix after the last '(' is
parenthesis-free, so its single comma is counted. -/
theorem claim_parameter_index_witness :
    getCurrentParameterIndex "ab" 2 = 0
    ∧ getCurrentParameterIndex "f(a,b" 5 = (("f(a,b".data.take 5).drop 2).count ',' :=
  ⟨(claim_parameter_index "ab" 2).1 (by decide),
   (claim_parameter_index "f(a,b" 5).2.1 1 (by decide) (by decide) (by decide)⟩

/- ### C7: completion parser -/

lemma buildItems_get? (l : List String) (n : Nat)
    (hall : ∀ x ∈ l, jsTrim x ≠ "") :
    ∀ i item, (buildItems l n).get? i = some item →
      item.sortText = some (pad5 (n + i)) := by
  induction l generalizing n with
  | nil => intro i item h; simp [buildItems] at h
  | cons x rest ih =>
    intro i item h
    have hx : jsTrim x ≠ "" := hall x (List.mem_cons_self x rest)
    have hrest : ∀ y ∈ rest, jsTrim y ≠ "" :=
      fun y hy => hall y (List.mem_cons_of_mem x hy)
    simp only [buildItems, if_pos hx] at h
    cases i with
    | zero =>
      simp at h
      rw [← h]
      simp
    | succ i' =>
      simp only [List.get?_cons_succ] at h
      have := ih (n + 1) hrest i' item h
      rw [this, show n + 1 + i' = n + (i' + 1) from by omega]

/-- C7: the completion parser splits the generated text on the
digit(s)-followed-by-dot pattern and keeps segments with non-empty
trim; the two spec examples hold; when no usable segment remains but
the raw text trims non-empty, exactly one candidate carries the full
trimmed text with sort key "00000"; and in every output the i-th item's
sort key is the zero-padded decimal of i, so keys follow list order. -/
theorem claim_completion_parsing :
    getAICompletionItems "1. x = 1\n2. y = 2"
      = [{ label := "x = 1", kind := 1, sortText := some "00000", insertText := some "x = 1" },
         { label := "y = 2", kind := 1, sortText := some "00001", insertText := some "y = 2" }]
    ∧ getAICompletionItems "return x + y"
      = [{ label := "return x + y", kind := 1, sortText := some "00000",
           insertText := some "return x + y" }]
    ∧ (∀ s, (splitNumDot s).filter (fun seg => 0 < (jsTrim seg).length) = [] →
        jsTrim s ≠ "" →
        getAICompletionItems s
          = [{ label := jsTrim s, kind := 1, sortText := some "00000",
               insertText := some (jsTrim s) }])
    ∧ (∀ s i item, (getAICompletionItems s).get? i = some item →
        item.sortText = some (pad5 i)) := by
  refine ⟨rfl, rfl, ?_, ?_⟩
  · intro s hfilter hne
    unfold getAICompletionItems
    rw [hfilter]
    simp [string_length_pos_of_ne _ hne]
  · intro s i item h
    by_cases hc : ((splitNumDot s).filter (fun seg => 0 < (jsTrim seg).length)).length = 0
        ∧ 0 < (jsTrim s).length
    · have hitems : getAICompletionItems s
          = [{ label := jsTrim s, kind := 1, sortText := some "00000",
               insertText := some (jsTrim s) }] := by
        unfold getAICompletionItems
        rw [if_pos hc]
      rw [hitems] at h
      cases i with
      | zero =>
        simp at h
        rw [← h]
        rfl
      | succ i' => simp at h
    · have hitems : getAICompletionItems s
          = buildItems ((splitNumDot s).filter (fun seg => 0 < (jsTrim seg).length)) 0 := by
        unfold getAICompletionItems
        rw [if_neg hc]
      have hall : ∀ x ∈ (splitNumDot s).filter (fun seg => 0 < (jsTrim seg).length),
          jsTrim x ≠ "" := by
        intro x hx
        have := List.of_mem_filter hx
        have hpos : 0 < (jsTrim x).length := by simpa using this
        intro hempty
        rw [hempty] at hpos
        simp [String.length] at hpos
      rw [hitems] at h
      simpa using buildItems_get? _ 0 hall i item h

/-- Witness for C7: "1." splits into whitespace-only segments, so the
fallback single candidate fires; and the second item of the two-item
example carries sort key "00001" = pad5 1. -/
theorem claim_completion_parsing_witness :
    getAICompletionItems "1."
      = [{ label := "1.", kind := 1, sortText := some "00000", insertText := some "1." }]
    ∧ ({ label := "y = 2", kind := 1, sortText := some "00001",
         insertText := some "y = 2" } : CompletionItem).sortText = some (pad5 1) :=
  ⟨claim_completion_parsing.2.2.1 "1." (by decide) (by decide),
   claim_completion_parsing.2.2.2 "1. x = 1\n2. y = 2" 1 _ (by decide)⟩

/- ### C8 / C10: completion-resolve parser -/

/-- C8 counterexample: the claim says documentation is set to "the
remaining lines joined"; for the generated text "A\n x" the remaining
lines joined are " x", but the code trims the join, so documentation is
"x". -/
theorem claim_resolve_parsing_counterexample :
    (applyDocText "A\n x" { label := "f" }).documentation = some "x"
    ∧ ("x" : String) ≠ " x" :=
  ⟨rfl, by decide⟩

/-- C8 (amended): the doc-resolve parser splits the generated text on
line breaks, sets detail to the trimmed first line, and sets
documentation to the remaining lines joined *and trimmed*, falling back
to the trimmed first line when that trimmed remainder is empty (in
particular for one-line input); so documentation is never blank when
the trimmed summary line is non-empty.  The two spec examples hold. -/
theorem claim_resolve_parsing (docText : String) (item : CompletionItem) :
    (applyDocText "Adds two numbers.\nReturns sum." item).detail = some "Adds two numbers."
    ∧ (applyDocText "Adds two numbers.\nReturns sum." item).documentation = some "Returns sum."
    ∧ (applyDocText "Just one line." item).documentation = some "Just one line."
    ∧ (applyDocText docText item).detail = some (jsTrim ((splitLines docText).getD 0 ""))
    ∧ (jsTrim (joinNl ((splitLines docText).drop 1)) = "" →
        (applyDocText docText item).documentation
          = some (jsTrim ((splitLines docText).getD 0 "")))
    ∧ (jsTrim (joinNl ((splitLines docText).drop 1)) ≠ "" →
        (applyDocText docText item).documentation
          = some (jsTrim (joinNl ((splitLines docText).drop 1))))
    ∧ (jsTrim ((splitLines docText).getD 0 "") ≠ "" →
        ∃ d, (applyDocText docText item).documentation = some d ∧ d ≠ "") := by
  have hfields : (applyDocText docText item).detail
        = some (jsTrim ((splitLines docText).getD 0 ""))
      ∧ (applyDocText docText item).documentation
        = some (jsOr (jsTrim (joinNl ((splitLines docText).drop 1)))
                     (jsTrim ((splitLines docText).getD 0 ""))) := by
    unfold applyDocText
    rw [if_pos (splitLines_length_pos docText)]
    exact ⟨rfl, rfl⟩
  refine ⟨rfl, rfl, rfl, hfields.1, ?_, ?_, ?_⟩
  · intro hrest
    rw [hfields.2]
    unfold jsOr
    rw [if_neg (not_ne_iff.mpr hrest)]
  · intro hrest
    rw [hfields.2]
    unfold jsOr
    rw [if_pos hrest]
  · intro hhead
    rw [hfields.2]
    by_cases hrest : jsTrim (joinNl ((splitLines docText).drop 1)) = ""
    · exact ⟨_, rfl, by unfold jsOr; rw [if_neg (not_ne_iff.mpr hrest)]; exact hhead⟩
    · exact ⟨_, rfl, by unfold jsOr; rw [if_pos hrest]; exact hrest⟩

/-- Witness for C8 at concrete inputs: a whitespace-only remainder
falls back to the summary line, a non-blank remainder is kept trimmed,
and a non-blank summary yields non-blank documentation. -/
theorem claim_resolve_parsing_witness :
    (applyDocText "A.\n " { label := "f" }).documentation = some "A."
    ∧ (applyDocText "A.\n B " { label := "f" }).documentation = some "B"
    ∧ ∃ d, (applyDocText "A.\n " { label := "g" }).documentation = some d ∧ d ≠ "" :=
  ⟨by
    have := (claim_resolve_parsing "A.\n " { label := "f" }).2.2.2.2.1 (by decide)
    simpa using this,
   by
    have := (claim_resolve_parsing "A.\n B " { label := "f" }).2.2.2.2.2.1 (by decide)
    simpa using this,
   (claim_resolve_parsing "A.\n " { label := "g" }).2.2.2.2.2.2 (by decide)⟩

/-- C10: when the inference call completes with the empty string, the
resolve handler still overwrites the item: splitting "" on newlines
gives one empty line, so detail and documentation are both set to the
empty string; an item whose detail differed is not returned unchanged. -/
theorem claim_resolve_empty_overwrite (key : Option String) (out : HttpOutcome)
    (item : CompletionItem) (h : callHuggingFaceAPI key out = .ok (.str "")) :
    onCompletionResolveHandler key out item
      = .ok { item with detail := some "", documentation := some "" }
    ∧ (item.detail ≠ some "" →
        onCompletionResolveHandler key out item ≠ .ok item) := by
  have hres : onCompletionResolveHandler key out item
      = .ok { item with detail := some "", documentation := some "" } := by
    unfold onCompletionResolveHandler
    rw [h]
    rfl
  refine ⟨hres, ?_⟩
  intro hdetail heq
  rw [hres] at heq
  have : ({ item with detail := some "", documentation := some "" } : CompletionItem) = item :=
    by injection heq
  exact hdetail (by rw [← this])

/-- Witness for C10: a 200 response whose generated text is the empty
string overwrites an item that previously carried a detail. -/
theorem claim_resolve_empty_overwrite_witness :
    onCompletionResolveHandler (some "k")
        (.response 200 (some (.obj [("generated_text", .str "")])))
        { label := "f", detail := some "x" }
      = .ok { label := "f", detail := some "", documentation := some "" }
    ∧ onCompletionResolveHandler (some "k")
        (.response 200 (some (.obj [("generated_text", .str "")])))
        { label := "f", detail := some "x" }
      ≠ .ok { label := "f", detail := some "x" } :=
  ⟨(claim_resolve_empty_overwrite (some "k")
      (.response 200 (some (.obj [("generated_text", .str "")])))
      { label := "f", detail := some "x" } rfl).1,
   (claim_resolve_empty_overwrite (some "k")
      (.response 200 (some (.obj [("generated_text", .str "")])))
      { label := "f", detail := some "x" } rfl).2 (by decide)⟩

/- ### C9: getWordRangeAtPosition -/

lemma scanWordStart_le (line : List Char) : ∀ p, scanWordStart line p ≤ p := by
  intro p
  induction p with
  | zero => simp [scanWordStart]
  | succ q ih =>
    unfold scanWordStart
    by_cases h : isIdentChar (line.getD q ' ')
    · rw [if_pos h]; omega
    · rw [if_neg h]

lemma scanWordStart_boundary (line : List Char) : ∀ p,
    scanWordStart line p = 0
    ∨ isIdentChar (line.getD (scanWordStart line p - 1) ' ') = false := by
  intro p
  induction p with
  | zero => left; rfl
  | succ q ih =>
    unfold scanWordStart
    by_cases h : isIdentChar (line.getD q ' ')
    · rw [if_pos h]; exact ih
    · rw [if_neg h]; right; simpa using h

lemma scanWordStart_ident (line : List Char) : ∀ p i,
    scanWordStart line p ≤ i → i < p → isIdentChar (line.getD i ' ') = true := by
  intro p
  induction p with
  | zero => intro i h1 h2; omega
  | succ q ih =>
    intro i h1 h2
    by_cases h : isIdentChar (line.getD q ' ')
    · rw [scanWordStart, if_pos h] at h1
      rcases Nat.lt_succ_iff_lt_or_eq.mp h2 with hlt | heq
      · exact ih i h1 hlt
      · rw [heq]; exact h
    · rw [scanWordStart, if_neg h] at h1
      omega

lemma scanWordEndAux_ge (line : List Char) : ∀ fuel e,
    e ≤ scanWordEndAux line fuel e := by
  intro fuel
  induction fuel with
  | zero => intro e; simp [scanWordEndAux]
  | succ f ih =>
    intro e
    unfold scanWordEndAux
    by_cases h1 : e < line.length
    · rw [if_pos h1]
      by_cases h2 : isIdentChar (line.getD e ' ')
      · rw [if_pos h2]
        have := ih (e + 1)
        omega
      · rw [if_neg h2]
    · rw [if_neg h1]

lemma scanWordEndAux_le (line : List Char) : ∀ fuel e,
    e ≤ line.length → scanWordEndAux line fuel e ≤ line.length := by
  intro fuel
  induction fuel with
  | zero => intro e h; simpa [scanWordEndAux] using h
  | succ f ih =>
    intro e h
    unfold scanWordEndAux
    by_cases h1 : e < line.length
    · rw [if_pos h1]
      by_cases h2 : isIdentChar (line.getD e ' ')
      · rw [if_pos h2]; exact ih (e + 1) h1
      · rw [if_neg h2]; exact h
    · rw [if_neg h1]; exact h

lemma scanWordEndAux_boundary (line : List Char) : ∀ fuel e,
    e ≤ line.length → line.length ≤ fuel + e →
    scanWordEndAux line fuel e = line.length
    ∨ isIdentChar (line.getD (scanWordEndAux line fuel e) ' ') = false := by
  intro fuel
  induction fuel with
  | zero =>
    intro e h1 h2
    left
    have : e = line.length := by omega
    simpa [scanWordEndAux] using this
  | succ f ih =>
    intro e h1 h2
    unfold scanWordEndAux
    by_cases hb : e < line.length
    · rw [if_pos hb]
      by_cases hc : isIdentChar (line.getD e ' ')
      · rw [if_pos hc]
        exact ih (e + 1) hb (by omega)
      · rw [if_neg hc]
        right
        simpa using hc
    · rw [if_neg hb]
      left
      omega

lemma scanWordEndAux_ident (line : List Char) : ∀ fuel e i,
    e ≤ i → i < scanWordEndAux line fuel e →
    isIdentChar (line.getD i ' ') = true := by
  intro fuel
  induction fuel with
  | zero =>
    intro e i h1 h2
    simp [scanWordEndAux] at h2
    omega
  | succ f ih =>
    intro e i h1 h2
    by_cases hb : e < line.length
    · by_cases hc : isIdentChar (line.getD e ' ')
      · rw [scanWordEndAux, if_pos hb, if_pos hc] at h2
        rcases Nat.lt_or_ge e i with hlt | hge
        · exact ih (e + 1) i hlt h2
        · have : i = e := by omega
          rw [this]
          exact hc
      · rw [scanWordEndAux, if_pos hb, if_neg hc] at h2
        omega
    · rw [scanWordEndAux, if_neg hb] at h2
      omega

/-- C9: `getWordRangeAtPosition` returns none when the position is out
of bounds or the character there is not in the identifier class
(letters, digits, underscore, dot); otherwise it returns a range with
start ≤ pos < end ≤ length whose characters all lie in the identifier
class and which is maximal on both sides.  (The "empty computed range"
condition of the claim is the code's final `start === end || end <=
start` check; it can never fire, since start ≤ pos < end always.) -/
theorem claim_word_range (line : List Char) (pos : Nat) :
    (pos ≥ line.length → getWordRangeAtPosition line pos = none)
    ∧ (pos < line.length → isIdentChar (line.getD pos ' ') = false →
        getWordRangeAtPosition line pos = none)
    ∧ (pos < line.length → isIdentChar (line.getD pos ' ') = true →
        ∃ s e, getWordRangeAtPosition line pos = some (s, e)
          ∧ s ≤ pos ∧ pos < e ∧ e ≤ line.length
          ∧ (∀ i, s ≤ i → i < e → isIdentChar (line.getD i ' ') = true)
          ∧ (s = 0 ∨ isIdentChar (line.getD (s - 1) ' ') = false)
          ∧ (e = line.length ∨ isIdentChar (line.getD e ' ') = false)) := by
  refine ⟨?_, ?_, ?_⟩
  · intro h
    unfold getWordRangeAtPosition
    by_cases he : line.isEmpty
    · rw [if_pos he]
    · rw [if_neg he, if_pos h]
  · intro h1 h2
    have he : ¬ line.isEmpty := by
      simp [List.isEmpty_iff]
      intro hnil
      rw [hnil] at h1
      simp at h1
    unfold getWordRangeAtPosition
    rw [if_neg he, if_neg (by omega), if_pos (by rw [h2]; simp)]
  · intro h1 h2
    have he : ¬ line.isEmpty := by
      simp [List.isEmpty_iff]
      intro hnil
      rw [hnil] at h1
      simp at h1
    have hs_le := scanWordStart_le line pos
    have he_ge := scanWordEndAux_ge line (line.length - (pos + 1)) (pos + 1)
    have hlt : scanWordStart line pos < scanWordEnd line (pos + 1) := by
      unfold scanWordEnd
      omega
    refine ⟨scanWordStart line pos, scanWordEnd line (pos + 1), ?_, hs_le, ?_, ?_, ?_, ?_, ?_⟩
    · unfold getWordRangeAtPosition
      rw [if_neg he, if_neg (by omega), if_neg (by rw [h2]; simp)]
      rw [if_neg (by omega)]
    · unfold scanWordEnd
      omega
    · exact scanWordEndAux_le line _ (pos + 1) (by omega)
    · intro i hsi hie
      rcases Nat.lt_or_ge i (pos + 1) with hlt' | hge'
      · rcases Nat.lt_or_ge i pos with hlt'' | hge''
        · exact scanWordStart_ident line pos i hsi hlt''
        · have : i = pos := by omega
          rw [this]; exact h2
      · exact scanWordEndAux_ident line _ (pos + 1) i hge' hie
    · exact scanWordStart_boundary line pos
    · exact scanWordEndAux_boundary line _ (pos + 1) (by omega) (by omega)

/-- Witness for C9 at concrete inputs: position 5 of "x foo.bar" (an
identifier character) yields the maximal dotted-identifier range
(2, 9); position 1 (a space) yields none; position 20 is out of
bounds. -/
theorem claim_word_range_witness :
    getWordRangeAtPosition "x foo.bar".data 20 = none
    ∧ getWordRangeAtPosition "x foo.bar".data 1 = none
    ∧ ∃ s e, getWordRangeAtPosition "x foo.bar".data 5 = some (s, e)
        ∧ s ≤ 5 ∧ 5 < e ∧ e ≤ "x foo.bar".data.length
        ∧ (∀ i, s ≤ i → i < e → isIdentChar ("x foo.bar".data.getD i ' ') = true)
        ∧ (s = 0 ∨ isIdentChar ("x foo.bar".data.getD (s - 1) ' ') = false)
        ∧ (e = "x foo.bar".data.length ∨ isIdentChar ("x foo.bar".data.getD e ' ') = false) :=
  ⟨(claim_word_range "x foo.bar".data 20).1 (by decide),
   (claim_word_range "x foo.bar".data 1).2.1 (by decide) (by decide),
   (claim_word_range "x foo.bar".data 5).2.2 (by decide) (by decide)⟩

/- ### C5: inference-client response handling -/

/-- Whether a JSON value is an object carrying a `generated_text`
field. -/
def hasGeneratedField : Json → Bool
  | .obj fields => (fields.lookup "generated_text").isSome
  | _ => false

/-- Whether a response body has one of the two accepted success shapes:
an object with a `generated_text` field, or a non-empty array whose
first element is such an object. -/
def exposesGeneratedText (j : Json) : Bool :=
  hasGeneratedField j ||
    (match j with
     | .arr (first :: _) => hasGeneratedField first
     | _ => false)

lemma parseResponseBody_no_field (j : Json) (hj : exposesGeneratedText j = false) :
    parseResponseBody (some j) = .str "" := by
  cases j with
  | null => rfl
  | bool b => rfl
  | num n => rfl
  | str s => rfl
  | arr elems =>
    cases elems with
    | nil => rfl
    | cons first rest =>
      cases first with
      | null => rfl
      | bool b => rfl
      | num n => rfl
      | str s => rfl
      | arr e2 => rfl
      | obj fields =>
        cases hlk : List.lookup "generated_text" fields with
        | none => simp [parseResponseBody, propAccess, truthy, hlk]
        | some v =>
          exfalso
          simp only [exposesGeneratedText, hasGeneratedField, hlk] at hj
          simp at hj
  | obj fields =>
    cases hlk : List.lookup "generated_text" fields with
    | none => simp [parseResponseBody, propAccess, truthy, hlk]
    | some v =>
      exfalso
      simp only [exposesGeneratedText, hasGeneratedField, hlk] at hj
      simp at hj

lemma parseResponseBody_obj (fields : List (String × Json)) (s : String)
    (h : fields.lookup "generated_text" = some (.str s)) :
    parseResponseBody (some (.obj fields)) = .str s := by
  by_cases hs : s = ""
  · simp [parseResponseBody, propAccess, truthy, h, hs]
  · simp [parseResponseBody, propAccess, truthy, h, hs]

lemma parseResponseBody_arr (fields : List (String × Json)) (rest : List Json) (s : String)
    (h : fields.lookup "generated_text" = some (.str s)) :
    parseResponseBody (some (.arr (.obj fields :: rest))) = .str s := by
  by_cases hs : s = ""
  · simp [parseResponseBody, propAccess, truthy, h, hs]
  · simp [parseResponseBody, propAccess, truthy, h, hs]

/-- C5 counterexample: the claim says a 2xx response with a good body
yields the generated text; the code compares the status against exactly
200, so a 201 response whose body carries generated text "hello" yields
the empty string instead. -/
theorem claim_client_parsing_counterexample :
    callHuggingFaceAPI (some "k")
        (.response 201 (some (.obj [("generated_text", .str "hello")])))
      = .ok (.str "")
    ∧ ("" : String) ≠ "hello" :=
  ⟨rfl, by decide⟩

/-- C5 (amended): with the credential present, the client returns the
generated text exactly when a 200 response body is an object with a
string `generated_text` field, or a non-empty array whose first element
is such an object; any other 200 body shape, any unparseable body, and
any status other than exactly 200 (including other 2xx statuses) each
yield the empty string; and no response ever produces an error past the
client boundary. -/
theorem claim_client_parsing (key : Option String) (status : Nat) (body : Option Json)
    (hkey : keyPresent key = true) :
    (status ≠ 200 → callHuggingFaceAPI key (.response status body) = .ok (.str ""))
    ∧ callHuggingFaceAPI key (.response 200 none) = .ok (.str "")
    ∧ (∀ fields s, fields.lookup "generated_text" = some (.str s) →
        callHuggingFaceAPI key (.response 200 (some (.obj fields))) = .ok (.str s))
    ∧ (∀ fields rest s, fields.lookup "generated_text" = some (.str s) →
        callHuggingFaceAPI key (.response 200 (some (.arr (.obj fields :: rest))))
          = .ok (.str s))
    ∧ (∀ j, exposesGeneratedText j = false →
        callHuggingFaceAPI key (.response 200 (some j)) = .ok (.str ""))
    ∧ (∃ v, callHuggingFaceAPI key (.response status body) = .ok v) := by
  have hcall : ∀ st b, callHuggingFaceAPI key (.response st b)
      = if st ≠ 200 then .ok (.str "") else .ok (parseResponseBody b) := by
    intro st b
    simp [callHuggingFaceAPI, hkey]
  refine ⟨?_, ?_, ?_, ?_, ?_, ?_⟩
  · intro h
    rw [hcall, if_pos h]
  · rw [hcall]
    simp [parseResponseBody]
  · intro fields s h
    rw [hcall]
    simp [parseResponseBody_obj fields s h]
  · intro fields rest s h
    rw [hcall]
    simp [parseResponseBody_arr fields rest s h]
  · intro j hj
    rw [hcall]
    simp [parseResponseBody_no_field j hj]
  · by_cases h : status ≠ 200
    · exact ⟨.str "", by rw [hcall, if_pos h]⟩
    · exact ⟨parseResponseBody body, by rw [hcall, if_neg h]⟩

/-- Witness for C5 at concrete inputs: a 500 status yields the empty
string, a 200 object body yields its generated text, a 200 array body
yields its first element's generated text, and a 200 number body (no
accepted shape) yields the empty string. -/
theorem claim_client_parsing_witness :
    callHuggingFaceAPI (some "k") (.response 500 none) = .ok (.str "")
    ∧ callHuggingFaceAPI (some "k")
        (.response 200 (some (.obj [("generated_text", .str "hi")]))) = .ok (.str "hi")
    ∧ callHuggingFaceAPI (some "k")
        (.response 200 (some (.arr [.obj [("generated_text", .str "ho")]]))) = .ok (.str "ho")
    ∧ callHuggingFaceAPI (some "k") (.response 200 (some (.num 3))) = .ok (.str "") :=
  ⟨(claim_client_parsing (some "k") 500 none rfl).1 (by decide),
   (claim_client_parsing (some "k") 200 none rfl).2.2.1 [("generated_text", .str "hi")] "hi" rfl,
   (claim_client_parsing (some "k") 200 none rfl).2.2.2.1 [("generated_text", .str "ho")] [] "ho" rfl,
   (claim_client_parsing (some "k") 200 none rfl).2.2.2.2.1 (.num 3) rfl⟩

/- ### Orchestrator error handling (C2, C3, C4, C6) -/

lemma string_ne_empty_of_length_pos (s : String) (h : 0 < s.length) : s ≠ "" := by
  intro he
  rw [he] at h
  exact absurd h (by decide)

lemma onCompletionHandler_error (key : Option String) (out : HttpOutcome)
    (docText : String) (pos : Position) (e : ApiError)
    (h : callHuggingFaceAPI key out = .error e) :
    (onCompletionHandler key out docText pos).result = .ok [] := by
  simp only [onCompletionHandler, getAICompletion, h]

lemma onCompletionResolveHandler_error (key : Option String) (out : HttpOutcome)
    (item : CompletionItem) (e : ApiError)
    (h : callHuggingFaceAPI key out = .error e) :
    onCompletionResolveHandler key out item = .ok item := by
  simp only [onCompletionResolveHandler, h]

lemma onSignatureHelpHandler_error (key : Option String) (out : HttpOutcome)
    (docText : String) (pos : Position) (e : ApiError)
    (hpos : pos.line < (splitLines docText).length)
    (h : callHuggingFaceAPI key out = .error e) :
    (onSignatureHelpHandler key out docText pos).result = .ok none := by
  obtain ⟨cl, hcl⟩ : ∃ cl, (splitLines docText).get? pos.line = some cl :=
    ⟨_, List.get?_eq_get hpos⟩
  simp only [onSignatureHelpHandler, hcl]
  rcases hli : lastIndexOfChar (jsSubstring cl 0 pos.character).data '(' with _ | i
  · rfl
  · simp only [h]

lemma onHoverHandler_error (key : Option String) (out : HttpOutcome)
    (docText : String) (pos : Position) (e : ApiError)
    (h : callHuggingFaceAPI key out = .error e) :
    (onHoverHandler key out docText pos).result = .ok none := by
  simp only [onHoverHandler]
  by_cases h1 : pos.line ≥ (splitLines docText).length
  · simp only [if_pos h1]
  · simp only [if_neg h1]
    by_cases h2 : pos.character ≥ ((splitLines docText).getD pos.line "").length
    · simp only [if_pos h2]
    · simp only [if_neg h2]
      rcases hwr : getWordRangeAtPosition
          ((splitLines docText).getD pos.line "").data pos.character with _ | ⟨s, e2⟩
      · simp only [hwr]
      · simp only [hwr]
        by_cases hw : jsSubstring ((splitLines docText).getD pos.line "") s e2 = ""
            ∨ jsTrim (jsSubstring ((splitLines docText).getD pos.line "") s e2) = ""
        · simp only [if_pos hw]
        · simp only [if_neg hw, h]

/-- C2 counterexample: the claim says the orchestrators propagate the
credential-missing error; with no key configured the client does reject
with that error, but the completion orchestrator converts it to the
empty list instead of propagating it. -/
theorem claim_error_propagation_counterexample :
    callHuggingFaceAPI none HttpOutcome.networkError = .error .missingKey
    ∧ (onCompletionHandler none HttpOutcome.networkError "abc" ⟨0, 0⟩).result = .ok []
    ∧ (onCompletionHandler none HttpOutcome.networkError "abc" ⟨0, 0⟩).result
      ≠ .error (JsError.api ApiError.missingKey) :=
  ⟨rfl, rfl, fun h => Except.noConfusion h⟩

/-- C2 (amended): when the credential is absent the inference client
raises an error (rather than returning empty text); however every
request orchestrator catches ALL inference failures — including the
credential-missing error — at its boundary and converts them to the
kind-appropriate empty result (empty list for completion, unchanged
input item for resolve, null for signature-help and hover); no
inference error is propagated to the caller. -/
theorem claim_error_propagation (key : Option String) (out : HttpOutcome)
    (docText : String) (pos : Position) (item : CompletionItem) :
    (keyPresent key = false → callHuggingFaceAPI key out = .error .missingKey)
    ∧ (∀ e, callHuggingFaceAPI key out = .error e →
        (onCompletionHandler key out docText pos).result = .ok []
        ∧ onCompletionResolveHandler key out item = .ok item
        ∧ (pos.line < (splitLines docText).length →
            (onSignatureHelpHandler key out docText pos).result = .ok none)
        ∧ (onHoverHandler key out docText pos).result = .ok none) := by
  constructor
  · intro hk
    simp [callHuggingFaceAPI, hk]
  · intro e he
    exact ⟨onCompletionHandler_error key out docText pos e he,
      onCompletionResolveHandler_error key out item e he,
      fun hpos => onSignatureHelpHandler_error key out docText pos e hpos he,
      onHoverHandler_error key out docText pos e he⟩

/-- Witness for C2 with the credential absent: the client rejects with
the missing-key error, and all four orchestrators return their
kind-appropriate empty results. -/
theorem claim_error_propagation_witness :
    callHuggingFaceAPI none HttpOutcome.timeout = .error .missingKey
    ∧ (onCompletionHandler none HttpOutcome.timeout "abc" ⟨0, 0⟩).result = .ok []
    ∧ onCompletionResolveHandler none HttpOutcome.timeout { label := "f" }
      = .ok { label := "f" }
    ∧ (onSignatureHelpHandler none HttpOutcome.timeout "abc" ⟨0, 0⟩).result = .ok none
    ∧ (onHoverHandler none HttpOutcome.timeout "abc" ⟨0, 0⟩).result = .ok none := by
  have h := claim_error_propagation none HttpOutcome.timeout "abc" ⟨0, 0⟩ { label := "f" }
  have hmk := h.1 (by decide)
  have hrest := h.2 .missingKey hmk
  exact ⟨hmk, hrest.1, hrest.2.1, hrest.2.2.1 (by decide), hrest.2.2.2⟩

/-- C3 counterexample: the claim says an out-of-bounds cursor position
is rejected with no crash and no network call by all three
position-taking handlers; for the one-line document "abc" and line
index 1 the completion handler still invokes the inference client, and
the signature-help handler throws a TypeError. -/
theorem claim_position_bounds_counterexample :
    (onCompletionHandler (some "k") HttpOutcome.timeout "abc" ⟨1, 0⟩).apiCalled = true
    ∧ (onSignatureHelpHandler (some "k") HttpOutcome.timeout "abc" ⟨1, 0⟩).result
      = .error .typeError :=
  ⟨rfl, rfl⟩

/-- C3 (amended): only the hover handler validates the cursor position
(returning null without any network activity when the line index or the
character offset is out of bounds); the completion handler performs no
bounds check — it always invokes the inference client (with the string
"undefined" as the current line when the index is out of bounds) though
it still never throws; and the signature-help handler throws a
TypeError on an out-of-bounds line index, before any network
activity. -/
theorem claim_position_bounds (key : Option String) (out : HttpOutcome)
    (docText : String) (pos : Position) :
    (pos.line ≥ (splitLines docText).length →
        (onHoverHandler key out docText pos).result = .ok none
        ∧ (onHoverHandler key out docText pos).apiCalled = false)
    ∧ (pos.line < (splitLines docText).length →
        pos.character ≥ ((splitLines docText).getD pos.line "").length →
        (onHoverHandler key out docText pos).result = .ok none
        ∧ (onHoverHandler key out docText pos).apiCalled = false)
    ∧ (onCompletionHandler key out docText pos).apiCalled = true
    ∧ (∃ items, (onCompletionHandler key out docText pos).result = .ok items)
    ∧ (pos.line ≥ (splitLines docText).length →
        (onSignatureHelpHandler key out docText pos).result = .error .typeError
        ∧ (onSignatureHelpHandler key out docText pos).apiCalled = false) := by
  refine ⟨?_, ?_, rfl, ⟨_, rfl⟩, ?_⟩
  · intro h
    constructor <;> simp only [onHoverHandler, if_pos h]
  · intro h1 h2
    constructor <;> simp only [onHoverHandler, if_neg (not_le.mpr h1), if_pos h2]
  · intro h
    have hget : (splitLines docText).get? pos.line = none := List.get?_eq_none.mpr h
    constructor <;> simp only [onSignatureHelpHandler, hget]

/-- Witness for C3 at concrete inputs: for the one-line document "abc",
hover rejects line index 1 and character offset 3 without a network
call, and signature-help at line index 1 throws before any network
activity. -/
theorem claim_position_bounds_witness :
    (onHoverHandler (some "k") HttpOutcome.timeout "abc" ⟨1, 0⟩).result = .ok none
    ∧ (onHoverHandler (some "k") HttpOutcome.timeout "abc" ⟨1, 0⟩).apiCalled = false
    ∧ (onHoverHandler (some "k") HttpOutcome.timeout "abc" ⟨0, 3⟩).result = .ok none
    ∧ (onHoverHandler (some "k") HttpOutcome.timeout "abc" ⟨0, 3⟩).apiCalled = false
    ∧ (onSignatureHelpHandler (some "k") HttpOutcome.timeout "abc" ⟨1, 0⟩).apiCalled
      = false := by
  have h1 := (claim_position_bounds (some "k") HttpOutcome.timeout "abc" ⟨1, 0⟩).1 (by decide)
  have h2 := (claim_position_bounds (some "k") HttpOutcome.timeout "abc" ⟨0, 3⟩).2.1
    (by decide) (by decide)
  have h3 := (claim_position_bounds (some "k") HttpOutcome.timeout "abc" ⟨1, 0⟩).2.2.2.2
    (by decide)
  exact ⟨h1.1, h1.2, h2.1, h2.2, h3.2⟩

/- ### C4: hover on empty inference text -/

/-- C4 counterexample: the claim says the hover handler returns no
hover when the inference call completes with the empty string; for the
document "abc" with the cursor on the word "abc" and a 200 response
whose generated text is empty, the handler instead returns a hover
whose markdown value is the fallback message. -/
theorem claim_hover_empty_counterexample :
    (onHoverHandler (some "k") (.response 200 (some (.obj [("generated_text", .str "")])))
        "abc" ⟨0, 0⟩).result
      = .ok (some { kind := "markdown", value := "No information available for 'abc'" })
    ∧ (onHoverHandler (some "k") (.response 200 (some (.obj [("generated_text", .str "")])))
        "abc" ⟨0, 0⟩).result ≠ .ok none :=
  ⟨rfl, fun hc => Option.noConfusion (Except.ok.inj hc)⟩

/-- C4 (amended): when the inference call completes with the empty
string and the hover handler has found a word at the cursor, it does
not return null: it returns a hover whose markdown value is the
non-empty fallback message naming the word — the empty InferenceResult
is surfaced as user-visible fallback content rather than as no
hover. -/
theorem claim_hover_empty_text (key : Option String) (out : HttpOutcome)
    (docText : String) (pos : Position) (s e : Nat)
    (hcall : callHuggingFaceAPI key out = .ok (.str ""))
    (h1 : pos.line < (splitLines docText).length)
    (h2 : pos.character < ((splitLines docText).getD pos.line "").length)
    (hwr : getWordRangeAtPosition ((splitLines docText).getD pos.line "").data pos.character
      = some (s, e))
    (hword : ¬(jsSubstring ((splitLines docText).getD pos.line "") s e = ""
      ∨ jsTrim (jsSubstring ((splitLines docText).getD pos.line "") s e) = "")) :
    (onHoverHandler key out docText pos).result
      = .ok (some { kind := "markdown", value :=
          noInfoFallback (jsSubstring ((splitLines docText).getD pos.line "") s e) })
    ∧ noInfoFallback (jsSubstring ((splitLines docText).getD pos.line "") s e) ≠ "" := by
  constructor
  · simp only [onHoverHandler, if_neg (not_le.mpr h1), if_neg (not_le.mpr h2), hwr,
      if_neg hword, hcall]
    rfl
  · apply string_ne_empty_of_length_pos
    simp only [noInfoFallback, String.length_append]
    have : 0 < "No information available for '".length := by decide
    omega

/-- Witness for C4: the document "abc", cursor at (0,0), word "abc",
and a 200 response with empty generated text produce the fallback
hover. -/
theorem claim_hover_empty_text_witness :
    (onHoverHandler (some "k") (.response 200 (some (.obj [("generated_text", .str "")])))
        "abc" ⟨0, 0⟩).result
      = .ok (some { kind := "markdown", value :=
          noInfoFallback (jsSubstring ((splitLines "abc").getD (Position.line ⟨0, 0⟩) "") 0 3) })
    ∧ noInfoFallback (jsSubstring ((splitLines "abc").getD (Position.line ⟨0, 0⟩) "") 0 3)
      ≠ "" :=
  claim_hover_empty_text (some "k")
    (.response 200 (some (.obj [("generated_text", .str "")]))) "abc" ⟨0, 0⟩ 0 3
    rfl (by decide) (by decide) (by decide) (by decide)

/- ### C6: timeout handling -/

/-- C6: the client's fixed timeout constant is 5000 ms; with the
credential present, a timed-out call rejects with the explicit timeout
error, which the caller receives and which differs from every resolved
value (in particular from the clean empty-text result used for bad
status and malformed bodies); and each orchestrator converts that
timeout error into its kind-appropriate empty/null result without
throwing to the editor (for signature-help, provided the handler did
not already crash on an out-of-bounds line before the call). -/
theorem claim_timeout (key : Option String) (docText : String) (pos : Position)
    (item : CompletionItem) (hkey : keyPresent key = true) :
    requestTimeoutMs = 5000
    ∧ callHuggingFaceAPI key .timeout = .error .timeout
    ∧ (∀ v : Json, (Except.error ApiError.timeout : Except ApiError Json) ≠ .ok v)
    ∧ (onCompletionHandler key .timeout docText pos).result = .ok []
    ∧ onCompletionResolveHandler key .timeout item = .ok item
    ∧ (pos.line < (splitLines docText).length →
        (onSignatureHelpHandler key .timeout docText pos).result = .ok none)
    ∧ (onHoverHandler key .timeout docText pos).result = .ok none := by
  have hto : callHuggingFaceAPI key .timeout = .error .timeout := by
    simp [callHuggingFaceAPI, hkey]
  exact ⟨rfl, hto, fun v h => Except.noConfusion h,
    onCompletionHandler_error key _ docText pos _ hto,
    onCompletionResolveHandler_error key _ item _ hto,
    fun hpos => onSignatureHelpHandler_error key _ docText pos _ hpos hto,
    onHoverHandler_error key _ docText pos _ hto⟩

/-- Witness for C6: with a present key and a timed-out call on the
document "f(a" the client rejects with the timeout error and all four
orchestrators return their kind-appropriate empty results. -/
theorem claim_timeout_witness :
    requestTimeoutMs = 5000
    ∧ callHuggingFaceAPI (some "k") .timeout = .error .timeout
    ∧ (onCompletionHandler (some "k") HttpOutcome.timeout "f(a" ⟨0, 3⟩).result = .ok []
    ∧ onCompletionResolveHandler (some "k") HttpOutcome.timeout { label := "f" }
      = .ok { label := "f" }
    ∧ (onSignatureHelpHandler (some "k") HttpOutcome.timeout "f(a" ⟨0, 3⟩).result = .ok none
    ∧ (onHoverHandler (some "k") HttpOutcome.timeout "f(a" ⟨0, 3⟩).result = .ok none := by
  have h := claim_timeout (some "k") "f(a" ⟨0, 3⟩ { label := "f" } (by decide)
  exact ⟨h.1, h.2.1, h.2.2.2.1, h.2.2.2.2.1, h.2.2.2.2.2.1 (by decide), h.2.2.2.2.2.2⟩
